import Mathlib

/-!
Shallow embedding of the SH110x OLED display driver
(`display/display.go` of biotinker/viam-i2c-display).

Go `byte` values are modelled as `Nat` (with explicit `% 256` where byte
wrap-around matters), Go `int` as `Int` (64-bit overflow is irrelevant at the
coordinate magnitudes the driver handles), Go `[]byte` as `List Nat`.
Bus I/O (`buses.I2C` handles) is modelled as a trace of bus events produced
under an environment that says how opens, reads, closes and writes behave.
A Go runtime panic (out-of-range index / slice) is modelled as an explicit
`GoOutcome.panicked` result.
-/

/-! ### Coordinate wrapping (the subtract / add loops of `writePixel`) -/

/-- Fuel-indexed body of the Go loop `for x >= m { x -= m }`.
The fuel is only a termination bound; `wrapSub` supplies enough of it
that the result is the loop's fixed point. -/
def wrapSubGo (m : Nat) : Nat → Int → Int
  | 0, x => x
  | fuel + 1, x => if (m : Int) ≤ x then wrapSubGo m fuel (x - m) else x

/-- The Go loop `for x >= m { x -= m }` (for the positive spans used by the
driver, `x.toNat` iterations always suffice). -/
def wrapSub (m : Nat) (x : Int) : Int :=
  wrapSubGo m x.toNat x

/-- Fuel-indexed body of the Go loop `for x < 0 { x += m }`. -/
def wrapAddGo (m : Nat) : Nat → Int → Int
  | 0, x => x
  | fuel + 1, x => if x < 0 then wrapAddGo m fuel (x + m) else x

/-- The Go loop `for x < 0 { x += m }` ((-x).toNat iterations suffice for the
positive spans used by the driver). -/
def wrapAdd (m : Nat) (x : Int) : Int :=
  wrapAddGo m (-x).toNat x

/-- The two consecutive wrap loops of `writePixel`: first subtract while
`x >= m`, then add while `x < 0` (only one of the two ever iterates). -/
def wrap (m : Nat) (x : Int) : Int :=
  wrapAdd m (wrapSub m x)

/-! ### writePixel -/

/-- The packed-bit index computed by `writePixel`: the code first swaps the
user coordinates (`x, y = y, x`), wraps the device-x (user `uy`) into
`[0, 64)` and the device-y (user `ux`) into `[0, 128)`, computes
`idx = x + (y/8)*WIDTH`, then clamps with the loop `for idx >= blen { idx -= blen }`
where `blen = 1024`. -/
def devIdx (ux uy : Int) : Int :=
  wrapSub 1024 (wrap 64 uy + (wrap 128 ux / 8) * 64)

/-- The bit position `y & 7` used by `writePixel` (`y` is the wrapped
device-y, i.e. the wrapped user `ux`). -/
def devBit (ux : Int) : Nat :=
  (wrap 128 ux).toNat &&& 7

/-- Go `writePixel(x, y int, buf []byte) []byte`:
`buf[idx] |= (1 << (y & 7))`. (`List.set`/`List.getD` give the in-range
behaviour; `writePixelChecked` below models the bounds fault.) -/
def writePixel (ux uy : Int) (buf : List Nat) : List Nat :=
  buf.set (devIdx ux uy).toNat
    (buf.getD (devIdx ux uy).toNat 0 ||| (1 <<< devBit ux))

/-- `writePixel` with the Go runtime bounds check on `buf[idx]` made
explicit: `none` is an index-out-of-range panic. -/
def writePixelChecked (ux uy : Int) (buf : List Nat) : Option (List Nat) :=
  if (devIdx ux uy).toNat < buf.length then some (writePixel ux uy buf) else none

/-- Go `blank()`: a zeroed 1024-byte framebuffer. -/
def blankBuf : List Nat := List.replicate 1024 0

/-! ### writeLine (Bresenham) -/

/-- The Go loop `for x0 <= x1 { plot; err -= dy; if err < 0 { y0 += ystep; err += dx }; x0++ }`,
run for a prescribed number of iterations (the caller passes `x1 - x0 + 1`,
which is exactly how often the guard `x0 <= x1` holds). -/
def bresLoop (steep : Bool) (dx dy ystep : Int) :
    Nat → Int → Int → Int → List Nat → List Nat
  | 0, _, _, _, buf => buf
  | n + 1, x0, y0, e, buf =>
    let buf := if steep then writePixel y0 x0 buf else writePixel x0 y0 buf
    let e := e - dy
    let y0' := if e < 0 then y0 + ystep else y0
    let e' := if e < 0 then e + dx else e
    bresLoop steep dx dy ystep n (x0 + 1) y0' e' buf

/-- The tail of Go `writeLine` after both endpoint swaps: compute `dx`,
`dy = |y1-y0|`, `ystep = sign`, `err = dx/2`, and walk `x0..x1`. -/
def lineWalk (x0 y0 x1 y1 : Int) (steep : Bool) (buf : List Nat) : List Nat :=
  let dx := x1 - x0
  let dy0 := y1 - y0
  let dy := if dy0 < 0 then dy0 * (-1) else dy0
  let ystep : Int := if y0 < y1 then 1 else -1
  bresLoop steep dx dy ystep (x1 - x0 + 1).toNat x0 y0 (dx / 2) buf

/-- The `if x0 > x1 { swap endpoints }` step of Go `writeLine`. -/
def lineCore (x0 y0 x1 y1 : Int) (steep : Bool) (buf : List Nat) : List Nat :=
  if x0 > x1 then lineWalk x1 y1 x0 y0 steep buf else lineWalk x0 y0 x1 y1 steep buf

/-- Go `writeLine(x0, y0, x1, y1 int, buf []byte) []byte`:
`steep := |y1-y0| > |x1-x0|`; if steep, swap the roles of x and y
(`x0,y0 = y0,x0` and `x1,y1 = y1,x1`), then normalize the walk direction and
run Bresenham. (`math.Abs` over `float64` of a Go int is exact at these
magnitudes and is modelled by integer absolute value.) -/
def writeLine (x0 y0 x1 y1 : Int) (buf : List Nat) : List Nat :=
  if (y1 - y0).natAbs > (x1 - x0).natAbs then
    lineCore y0 x0 y1 x1 true buf
  else
    lineCore x0 y0 x1 y1 false buf

/-! ### Glyph atlas and writeString -/

/-- Modelled from the spec: per-glyph metrics of the Glyph Atlas. The font
data file defining `chars` and `freemono` is not among the provided source
files; spec section 4.1 describes the atlas as read-only static data keyed by
ASCII code with fields byteOffset, width, height, advance, xOffset, yOffset. -/
structure GlyphInfo where
  bo : Nat
  w : Nat
  h : Nat
  adv : Int
  xo : Int
  yo : Int

/-- Modelled from the spec: the Glyph Atlas as total read-only lookups
(`chars` metric table indexed by `charIdx`, `freemono` bitmap blob indexed
by byte offset). The concrete tables live in a source file that was not
provided. -/
structure Atlas where
  chars : Nat → GlyphInfo
  freemono : Nat → Nat

/-- The nested `for yy / for xx` glyph-unpacking loop of Go `writeString`,
linearised row-major (cell `i` is `xx = i % w`, `yy = i / w`; the caller
passes `h*w` as the step count, so `w = 0` or `h = 0` runs no steps, as in
the source). State: `bit`, `bits` (Go bytes, wrapping mod 256) and the blob
offset `bo`. The shift `bits <<= 1` happens after the pixel test. -/
def glyphLoop (atlas : Atlas) (gx gy : Int) (w : Nat) :
    Nat → Nat → Nat → Nat → Nat → List Nat → List Nat
  | 0, _, _, _, _, buf => buf
  | n + 1, i, bit, bits, bo, buf =>
    let bits' := if bit % 8 = 0 then atlas.freemono bo else bits
    let bo' := if bit % 8 = 0 then bo + 1 else bo
    let bit' := (bit + 1) % 256
    let buf' := if 0 < bits' &&& 0x80 then
        writePixel (gx + (i % w : Nat)) (gy - (i / w : Nat)) buf
      else buf
    glyphLoop atlas gx gy w n (i + 1) bit' ((bits' * 2) % 256) bo' buf'

/-- Go `writeString(x, y int, char string, buf []byte) []byte`: iterate the
raw bytes of the text; `charIdx := cb - 0x20` (byte subtraction, wrapping);
skip bytes with `cb < 0x20 || charIdx >= 95` without advancing the pen;
otherwise unpack the glyph at `(x + xo, (y - yo))` and advance `x += adv`. -/
def writeStringR (atlas : Atlas) : Int → Int → List Nat → List Nat → List Nat
  | _, _, [], buf => buf
  | x, y, cb :: rest, buf =>
    let charIdx := (cb + 256 - 0x20) % 256
    if cb < 0x20 ∨ 95 ≤ charIdx then
      writeStringR atlas x y rest buf
    else
      let g := atlas.chars charIdx
      let buf' := glyphLoop atlas (x + g.xo) (y - g.yo) g.w (g.h * g.w) 0 0 0 g.bo buf
      writeStringR atlas (x + g.adv) y rest buf'

/-! ### Bus model -/

/-- One event on the i2c bus, as seen through a `buses.I2CHandle`. -/
inductive BusEvent where
  | openHandle : BusEvent
  | read : Nat → BusEvent
  | write : List Nat → BusEvent
  | closeHandle : BusEvent
deriving DecidableEq, Repr

/-- Environment describing how the bus behaves during one public operation:
whether `OpenHandle` fails, the byte slice a 1-byte `Read` returns (empty
models a failed read, whose error the driver discards), whether `Close`
fails, and a per-write failure oracle for `Write` (whose error return the
driver discards at every call site). -/
structure Bus where
  openFails : Bool
  readData : List Nat
  closeFails : Bool
  writeFails : Nat → Bool

/-- Result of a Go function in this driver: normal return with a nil error,
return of a non-nil error, or a runtime panic (out-of-range index). -/
inductive GoOutcome where
  | ok : GoOutcome
  | goerr : GoOutcome
  | panicked : GoOutcome
deriving DecidableEq, Repr

/-- Result of one driver operation: the bus trace it emitted, how it
returned, and the value of `d.current` afterwards. -/
structure OpResult where
  trace : List BusEvent
  out : GoOutcome
  current : List Nat
deriving DecidableEq, Repr

/-- The 23-byte initialization command sequence of `initDisp`
(display off, clock div, memory mode, contrast, DC-DC, segment remap,
scan inc, display start line, display offset, precharge, VCOM detect,
multiplex, all-on-resume, normal display). -/
def initSeq : List Nat :=
  [0x00, 0xAE, 0xD5, 0x51, 0x20, 0x81, 0x4F, 0xAD, 0x8A, 0xA0, 0xC0,
   0xDC, 0x00, 0xD3, 0x60, 0xD9, 0x22, 0xDB, 0x35, 0xA8, 0x3F, 0xA4, 0xA6]

/-- The bus trace emitted by a successful `initDisp`: open, contrast-set
write `[0x00, 0x81, 0x2F]`, the init sequence, the display-on write
`[0x00, 0xAF]`, then the deferred close. (The 100ms sleep is not a bus
event.) -/
def initDispTrace : List BusEvent :=
  [BusEvent.openHandle,
   BusEvent.write [0x00, 0x81, 0x2F],
   BusEvent.write initSeq,
   BusEvent.write [0x00, 0xAF],
   BusEvent.closeHandle]

/-- Go `initDisp`: open a handle (surfacing an open failure), then issue the
three writes, discarding their error returns; the deferred close discards
its error. -/
def initDisp (env : Bus) : List BusEvent × GoOutcome :=
  if env.openFails then ([], GoOutcome.goerr)
  else (initDispTrace, GoOutcome.ok)

/-- Go `checkInit`: open a handle (surfacing an open failure), do a 1-byte
read discarding its error, close the handle surfacing a close failure, then
index `buffer[0]` — a panic when the read returned nothing — and re-run
`initDisp` (discarding its result) exactly when the byte is 71. -/
def checkInit (env : Bus) : List BusEvent × GoOutcome :=
  if env.openFails then ([], GoOutcome.goerr)
  else
    let tr := [BusEvent.openHandle, BusEvent.read 1, BusEvent.closeHandle]
    if env.closeFails then (tr, GoOutcome.goerr)
    else
      match env.readData with
      | [] => (tr, GoOutcome.panicked)
      | b :: _ =>
        if b = 71 then (tr ++ (initDisp env).1, GoOutcome.ok)
        else (tr, GoOutcome.ok)

/-- The page loop of `writeBuf`: for `iter` in the remaining `n` iterations
(the source runs `reg` from `0xB0` through `0xBF`, i.e. 16 iterations),
write the page-select command `[0, reg, 0x10, 0]`, the first 31 pixel bytes
`buf[iter*64 : 31+iter*64]`, the next 31 `buf[31+iter*64 : 62+iter*64]`, and
the last two `buf[62+iter*64]`, `buf[63+iter*64]`, each pixel write prefixed
by `0x40`. -/
def pageLoop (buf : List Nat) : Nat → Nat → List BusEvent
  | _, 0 => []
  | iter, n + 1 =>
    [BusEvent.write [0, 0xB0 + iter, 0x10, 0],
     BusEvent.write (0x40 :: ((buf.drop (0 + iter * 64)).take 31)),
     BusEvent.write (0x40 :: ((buf.drop (31 + iter * 64)).take 31)),
     BusEvent.write [0x40, buf.getD (62 + iter * 64) 0, buf.getD (63 + iter * 64) 0]]
    ++ pageLoop buf (iter + 1) n

/-- The 16-page write trace of `writeBuf`'s loop. -/
def codePages (buf : List Nat) : List BusEvent :=
  pageLoop buf 0 16

/-- Go `writeBuf`: run `checkInit` discarding its error return (but a panic
inside it propagates), open a handle surfacing an open failure, emit the
16-page write trace with every `Write` error discarded, set `d.current = buf`,
and return nil. A buffer shorter than 1024 bytes makes the Go slice
expressions fault (the partial trace emitted before the fault is not
modelled; no claim depends on it). -/
def writeBuf (env : Bus) (cur buf : List Nat) : OpResult :=
  let c := checkInit env
  match c.2 with
  | GoOutcome.panicked => ⟨c.1, GoOutcome.panicked, cur⟩
  | _ =>
    if env.openFails then ⟨c.1, GoOutcome.goerr, cur⟩
    else if buf.length < 1024 then
      ⟨c.1 ++ [BusEvent.openHandle], GoOutcome.panicked, cur⟩
    else
      ⟨c.1 ++ [BusEvent.openHandle] ++ codePages buf ++ [BusEvent.closeHandle],
       GoOutcome.ok, buf⟩

/-! ### The four public operations -/

/-- The copy loop of `DisplayBytes`: `new := make([]byte, n)` zero-filled,
then `for i, pix := range data { if i >= len(new) { break }; new[i] = pix }`. -/
def overwrite : List Nat → List Nat → List Nat
  | zs, [] => zs
  | [], _ :: _ => []
  | _ :: zs, d :: ds => d :: overwrite zs ds

/-- Go `DisplayBytes`: first `writeBuf(blank())` with its result discarded
(a panic still propagates), then build `new` from up to `len(d.current)`
bytes of `data` and `writeBuf(new)`. -/
def displayBytes (env : Bus) (cur data : List Nat) : OpResult :=
  let r1 := writeBuf env cur blankBuf
  match r1.out with
  | GoOutcome.panicked => ⟨r1.trace, GoOutcome.panicked, r1.current⟩
  | _ =>
    let new := overwrite (List.replicate r1.current.length 0) data
    let r2 := writeBuf env r1.current new
    ⟨r1.trace ++ r2.trace, r2.out, r2.current⟩

/-- Go `WriteString`: render the text onto a copy of `d.current`, then
`writeBuf` the result. -/
def writeStringOp (atlas : Atlas) (env : Bus) (cur : List Nat)
    (x y : Int) (text : List Nat) : OpResult :=
  writeBuf env cur (writeStringR atlas x y text cur)

/-- Go `DrawLine`: rasterize the line onto a copy of `d.current`, then
`writeBuf` the result. -/
def drawLineOp (env : Bus) (cur : List Nat) (x1 y1 x2 y2 : Int) : OpResult :=
  writeBuf env cur (writeLine x1 y1 x2 y2 cur)

/-- Go `Reset`: `initDisp` with its error discarded, then `writeBuf(blank())`. -/
def resetOp (env : Bus) (cur : List Nat) : OpResult :=
  let i := initDisp env
  let r := writeBuf env cur blankBuf
  ⟨i.1 ++ r.trace, r.out, r.current⟩

/-! ### Spec-side commit trace (for the refinement claim C1) -/

/-- Built from the spec's words, for comparison with `codePages`: page `p`
carries buffer bytes `64*p .. 64*p+63`; the page-select command
`[0x00, page, 0x10, 0x00]` is followed by the page's 64 pixel bytes split
into data transfers of 31, 31 and 2 bytes, each prefixed with `0x40`. -/
def specPage (buf : List Nat) (p : Nat) : List BusEvent :=
  let page := (buf.drop (64 * p)).take 64
  [BusEvent.write [0x00, 0xB0 + p, 0x10, 0x00],
   BusEvent.write (0x40 :: page.take 31),
   BusEvent.write (0x40 :: ((page.drop 31).take 31)),
   BusEvent.write (0x40 :: page.drop 62)]

/-- Built from the spec's words: the full commit trace, pages `0xB0 + p`
for `p = 0 .. 15` in ascending order. -/
def specPages (buf : List Nat) : List BusEvent :=
  ((List.range 16).map (specPage buf)).flatten

/-! ### Lemmas: the wrap loops compute the Euclidean remainder -/

lemma wrapSubGo_spec (m : Nat) (hm : 0 < m) :
    ∀ (f : Nat) (x : Int), 0 ≤ x → x < (m : Int) + f → wrapSubGo m f x = x % m := by
  intro f
  induction f with
  | zero =>
    intro x hx hf
    rw [wrapSubGo, Int.emod_eq_of_lt hx (by omega)]
  | succ f ih =>
    intro x hx hf
    rw [wrapSubGo]
    split
    · rw [ih (x - m) (by omega) (by push_cast at hf ⊢; omega)]
      have h : x - (m : Int) = x + m * (-1) := by ring
      rw [h, Int.add_mul_emod_self_left]
    · rw [Int.emod_eq_of_lt hx (by omega)]

lemma wrapSub_of_nonneg (m : Nat) (hm : 0 < m) (x : Int) (hx : 0 ≤ x) :
    wrapSub m x = x % m := by
  unfold wrapSub
  exact wrapSubGo_spec m hm x.toNat x hx (by omega)

lemma wrapSub_of_neg (m : Nat) (x : Int) (hx : x < 0) : wrapSub m x = x := by
  unfold wrapSub
  have h : x.toNat = 0 := by omega
  rw [h, wrapSubGo]

lemma wrapAddGo_of_nonneg (m : Nat) (f : Nat) (x : Int) (hx : 0 ≤ x) :
    wrapAddGo m f x = x := by
  cases f with
  | zero => rfl
  | succ f => rw [wrapAddGo, if_neg (by omega)]

lemma wrapAddGo_spec (m : Nat) (hm : 0 < m) :
    ∀ (f : Nat) (x : Int), x < 0 → -((f : Int) * m) ≤ x → wrapAddGo m f x = x % m := by
  intro f
  induction f with
  | zero =>
    intro x hx hf
    simp only [Int.natCast_zero, zero_mul, neg_zero] at hf
    omega
  | succ f ih =>
    intro x hx hf
    rw [wrapAddGo, if_pos hx]
    rcases le_or_lt 0 (x + m) with hge | hlt
    · rw [wrapAddGo_of_nonneg m f (x + m) hge]
      have h1 : x % (m : Int) = (x + m) % m := by
        have h : x + (m : Int) = x + m * 1 := by ring
        rw [h, Int.add_mul_emod_self_left]
      rw [h1, Int.emod_eq_of_lt hge (by omega)]
    · have hb : -((f : Int) * m) ≤ x + m := by
        have hexp : ((f + 1 : Nat) : Int) * m = (f : Int) * m + m := by push_cast; ring
        rw [hexp] at hf
        linarith
      rw [ih (x + m) hlt hb]
      have h : x + (m : Int) = x + m * 1 := by ring
      rw [h, Int.add_mul_emod_self_left]

lemma wrapAdd_of_nonneg (m : Nat) (x : Int) (hx : 0 ≤ x) : wrapAdd m x = x := by
  unfold wrapAdd
  exact wrapAddGo_of_nonneg m _ x hx

lemma wrapAdd_of_neg (m : Nat) (hm : 0 < m) (x : Int) (hx : x < 0) :
    wrapAdd m x = x % m := by
  unfold wrapAdd
  apply wrapAddGo_spec m hm _ x hx
  have h1 : (((-x).toNat : Nat) : Int) = -x := Int.toNat_of_nonneg (by omega)
  rw [h1]
  have h2 : x * (m : Int) ≤ x * 1 :=
    mul_le_mul_of_nonpos_left (by exact_mod_cast hm) (by omega)
  linarith

lemma wrap_eq_emod (m : Nat) (hm : 0 < m) (x : Int) : wrap m x = x % m := by
  unfold wrap
  rcases le_or_lt 0 x with hx | hx
  · rw [wrapSub_of_nonneg m hm x hx]
    exact wrapAdd_of_nonneg m _ (Int.emod_nonneg x (by exact_mod_cast hm.ne'))
  · rw [wrapSub_of_neg m x hx, wrapAdd_of_neg m hm x hx]

/-! ### Lemmas: index bounds and periodicity of writePixel -/

lemma wrap64_eq (x : Int) : wrap 64 x = x % 64 := wrap_eq_emod 64 (by norm_num) x

lemma wrap128_eq (x : Int) : wrap 128 x = x % 128 := wrap_eq_emod 128 (by norm_num) x

lemma devIdx_nonneg_lt (ux uy : Int) : 0 ≤ devIdx ux uy ∧ devIdx ux uy < 1024 := by
  unfold devIdx
  rw [wrap64_eq, wrap128_eq]
  have ht : 0 ≤ uy % 64 + ux % 128 / 8 * 64 ∧ uy % 64 + ux % 128 / 8 * 64 < 1024 := by
    omega
  rw [wrapSub_of_nonneg 1024 (by norm_num) _ ht.1]
  omega

lemma devIdx_shift (ux uy : Int) : devIdx (ux + 128) (uy + 64) = devIdx ux uy := by
  unfold devIdx
  rw [wrap64_eq, wrap64_eq, wrap128_eq, wrap128_eq]
  have h1 : (uy + 64) % 64 = uy % 64 := by omega
  have h2 : (ux + 128) % 128 = ux % 128 := by omega
  rw [h1, h2]

lemma devBit_shift (ux : Int) : devBit (ux + 128) = devBit ux := by
  unfold devBit
  rw [wrap128_eq, wrap128_eq]
  have h : (ux + 128) % 128 = ux % 128 := by omega
  rw [h]

/-! ### Lemmas: writeLine endpoint symmetry and the degenerate case -/

lemma lineCore_comm (x0 y0 x1 y1 : Int) (st : Bool) (buf : List Nat)
    (h : x0 = x1 → y0 = y1) :
    lineCore x0 y0 x1 y1 st buf = lineCore x1 y1 x0 y0 st buf := by
  unfold lineCore
  rcases lt_trichotomy x0 x1 with hlt | heq | hgt
  · rw [if_neg (by omega), if_pos (by omega)]
  · have hy := h heq
    subst heq
    subst hy
    rfl
  · rw [if_pos (by omega), if_neg (by omega)]

lemma writeLine_point (x y : Int) (buf : List Nat) :
    writeLine x y x y buf = writePixel x y buf := by
  unfold writeLine
  rw [if_neg (by omega)]
  unfold lineCore
  rw [if_neg (by omega)]
  unfold lineWalk
  simp only [sub_self]
  norm_num [bresLoop, Int.zero_ediv]

/-! ### Lemmas: the page loop emits the spec's per-page transfers -/

lemma slice31a_eq (buf : List Nat) (iter : Nat) :
    (buf.drop (0 + iter * 64)).take 31 = ((buf.drop (64 * iter)).take 64).take 31 := by
  rw [List.take_take]
  have h0 : 0 + iter * 64 = 64 * iter := by ring
  rw [h0]
  norm_num

lemma slice31b_eq (buf : List Nat) (iter : Nat) :
    (buf.drop (31 + iter * 64)).take 31 = (((buf.drop (64 * iter)).take 64).drop 31).take 31 := by
  rw [List.drop_take, List.drop_drop, List.take_take]
  have h0 : 31 + iter * 64 = 64 * iter + 31 := by ring
  rw [h0]
  norm_num

lemma slice2_eq (buf : List Nat) (iter : Nat) (h : iter * 64 + 64 ≤ buf.length) :
    [buf.getD (62 + iter * 64) 0, buf.getD (63 + iter * 64) 0]
      = ((buf.drop (64 * iter)).take 64).drop 62 := by
  have h1 : 64 * iter + 62 < buf.length := by omega
  have h2 : 64 * iter + 62 + 1 < buf.length := by omega
  have i1 : 62 + iter * 64 = 64 * iter + 62 := by ring
  have i2 : 63 + iter * 64 = 64 * iter + 62 + 1 := by ring
  rw [i1, i2, List.getD_eq_getElem buf 0 h1, List.getD_eq_getElem buf 0 h2,
    List.drop_take, List.drop_drop]
  norm_num
  rw [List.drop_eq_getElem_cons h1, List.drop_eq_getElem_cons h2]
  rfl

lemma pageBlock_eq (buf : List Nat) (iter : Nat) (h : iter * 64 + 64 ≤ buf.length) :
    [BusEvent.write [0, 0xB0 + iter, 0x10, 0],
     BusEvent.write (0x40 :: ((buf.drop (0 + iter * 64)).take 31)),
     BusEvent.write (0x40 :: ((buf.drop (31 + iter * 64)).take 31)),
     BusEvent.write [0x40, buf.getD (62 + iter * 64) 0, buf.getD (63 + iter * 64) 0]]
      = specPage buf iter := by
  unfold specPage
  rw [slice31a_eq, slice31b_eq]
  have h3 : ([0x40, buf.getD (62 + iter * 64) 0, buf.getD (63 + iter * 64) 0] : List Nat)
      = 0x40 :: ((buf.drop (64 * iter)).take 64).drop 62 := by
    rw [← slice2_eq buf iter h]
  rw [h3]

lemma pageLoop_eq_spec (buf : List Nat) :
    ∀ (n iter : Nat), (iter + n) * 64 ≤ buf.length →
      pageLoop buf iter n = ((List.range n).map (fun j => specPage buf (iter + j))).flatten := by
  intro n
  induction n with
  | zero => intro iter _; rfl
  | succ n ih =>
    intro iter h
    rw [pageLoop, ih (iter + 1) (by omega), List.range_succ_eq_map]
    rw [List.map_cons, List.flatten_cons, List.map_map]
    have hf : ((fun j => specPage buf (iter + j)) ∘ Nat.succ)
        = fun j => specPage buf (iter + 1 + j) := by
      funext j
      simp only [Function.comp_apply]
      congr 1
      omega
    rw [hf]
    simp only [Nat.add_zero]
    have hb := pageBlock_eq buf iter (by omega)
    rw [← hb]

lemma codePages_eq_specPages (buf : List Nat) (h : 1024 ≤ buf.length) :
    codePages buf = specPages buf := by
  unfold codePages specPages
  rw [pageLoop_eq_spec buf 16 0 (by omega)]
  simp

/-! ### Lemmas: checkInit and writeBuf under a live bus -/

lemma checkInit_ok (b : Nat) (rest : List Nat) (wf : Nat → Bool) :
    checkInit ⟨false, b :: rest, false, wf⟩ =
      ([BusEvent.openHandle, BusEvent.read 1, BusEvent.closeHandle]
        ++ (if b = 71 then initDispTrace else []), GoOutcome.ok) := by
  unfold checkInit initDisp
  by_cases hb : b = 71 <;> simp [hb]

lemma writeBuf_ok (b : Nat) (rest : List Nat) (wf : Nat → Bool) (cur buf : List Nat)
    (hlen : 1024 ≤ buf.length) :
    writeBuf ⟨false, b :: rest, false, wf⟩ cur buf =
      ⟨(checkInit ⟨false, b :: rest, false, wf⟩).1 ++ [BusEvent.openHandle]
        ++ codePages buf ++ [BusEvent.closeHandle], GoOutcome.ok, buf⟩ := by
  unfold writeBuf
  rw [checkInit_ok]
  simp [Nat.not_lt.mpr hlen]

lemma writeBuf_openFail (rd : List Nat) (cf : Bool) (wf : Nat → Bool) (cur buf : List Nat) :
    writeBuf ⟨true, rd, cf, wf⟩ cur buf = ⟨[], GoOutcome.goerr, cur⟩ := by
  unfold writeBuf checkInit
  simp

/-! ### Lemmas: the DisplayBytes copy loop truncates and pads -/

lemma overwrite_replicate_zero (data : List Nat) :
    ∀ n, overwrite (List.replicate n 0) data
      = data.take n ++ List.replicate (n - data.length) 0 := by
  induction data with
  | nil => intro n; simp [overwrite]
  | cons d ds ih =>
    intro n
    cases n with
    | zero => simp [overwrite]
    | succ n => simp [List.replicate_succ, overwrite, ih n]

/-! ### Claim theorems -/

set_option maxRecDepth 1000000

/-- C3 counterexample: the claimed identity `setPixel(buf,x,y) =
setPixel(buf,x+64,y+128)` fails at `buf = blank(), x = 0, y = 0`: the first
call sets bit 0 of byte 0, the second sets bit 0 of byte 512 (the swap in
`writePixel` makes user-x wrap modulo 128 and user-y wrap modulo 64, not the
other way round). -/
theorem claim_C3_counterexample :
    writePixel 0 0 blankBuf ≠ writePixel (0 + 64) (0 + 128) blankBuf := by
  decide

/-- C3 (amended): wrapping is periodic with period 128 in x and 64 in y of
the user coordinates: `setPixel(buf,x,y) = setPixel(buf,x+128,y+64)` for all
integers `x, y` and every buffer. -/
theorem claim_C3_amended (x y : Int) (buf : List Nat) :
    writePixel x y buf = writePixel (x + 128) (y + 64) buf := by
  unfold writePixel
  rw [devIdx_shift, devBit_shift]

/-- C4: line rasterization is endpoint-order-independent: for all integer
endpoints and every buffer, `writeLine(buf,a,b,c,d)` produces exactly the
same buffer as `writeLine(buf,c,d,a,b)`. -/
theorem claim_C4 (x0 y0 x1 y1 : Int) (buf : List Nat) :
    writeLine x0 y0 x1 y1 buf = writeLine x1 y1 x0 y0 buf := by
  unfold writeLine
  have habs1 : (y0 - y1).natAbs = (y1 - y0).natAbs := by omega
  have habs2 : (x0 - x1).natAbs = (x1 - x0).natAbs := by omega
  rw [habs1, habs2]
  by_cases hst : (y1 - y0).natAbs > (x1 - x0).natAbs
  · rw [if_pos hst, if_pos hst]
    exact lineCore_comm y0 x0 y1 x1 true buf (fun he => by omega)
  · rw [if_neg hst, if_neg hst]
    exact lineCore_comm x0 y0 x1 y1 false buf (fun he => by omega)

/-- C7: `setPixel` is total over all integer inputs: for every 1024-byte
buffer the computed packed-bit index lies in `[0, 1024)`, the bounds-checked
call succeeds (never faults), and the buffer length is preserved. -/
theorem claim_C7 (x y : Int) (buf : List Nat) (h : buf.length = 1024) :
    0 ≤ devIdx x y ∧ devIdx x y < 1024 ∧
    writePixelChecked x y buf = some (writePixel x y buf) ∧
    (writePixel x y buf).length = 1024 := by
  obtain ⟨h0, h1⟩ := devIdx_nonneg_lt x y
  refine ⟨h0, h1, ?_, ?_⟩
  · unfold writePixelChecked
    rw [if_pos (by omega)]
  · unfold writePixel
    rw [List.length_set, h]

theorem claim_C7_witness :
    blankBuf.length = 1024 ∧
    (0 ≤ devIdx (-5) 200 ∧ devIdx (-5) 200 < 1024 ∧
     writePixelChecked (-5) 200 blankBuf = some (writePixel (-5) 200 blankBuf) ∧
     (writePixel (-5) 200 blankBuf).length = 1024) :=
  ⟨by decide, claim_C7 (-5) 200 blankBuf (by decide)⟩

/-- C8: a degenerate line plots exactly its endpoint: `writeLine` with equal
endpoints equals a single `writePixel` there, and on a blank buffer
`drawLine(5,5,5,5)` yields the buffer whose only set bit is bit 5 of byte 5 —
the packed position of user coordinate (5,5). -/
theorem claim_C8 :
    (∀ (x y : Int) (buf : List Nat), writeLine x y x y buf = writePixel x y buf)
    ∧ writeLine 5 5 5 5 blankBuf = blankBuf.set 5 32 := by
  refine ⟨fun x y buf => writeLine_point x y buf, ?_⟩
  decide

/-- C10: when the 1-byte status read yields an empty result (the handle
opened and closes fine), the probe indexes element 0 of the empty slice, so
every public operation that writes the framebuffer panics instead of
returning an error. -/
theorem claim_C10 (wf : Nat → Bool) (cur buf data text : List Nat) (atlas : Atlas)
    (x y a b c d : Int) :
    (writeBuf ⟨false, [], false, wf⟩ cur buf).out = GoOutcome.panicked ∧
    (displayBytes ⟨false, [], false, wf⟩ cur data).out = GoOutcome.panicked ∧
    (writeStringOp atlas ⟨false, [], false, wf⟩ cur x y text).out = GoOutcome.panicked ∧
    (drawLineOp ⟨false, [], false, wf⟩ cur a b c d).out = GoOutcome.panicked ∧
    (resetOp ⟨false, [], false, wf⟩ cur).out = GoOutcome.panicked := by
  have hw : ∀ (c b2 : List Nat), writeBuf ⟨false, [], false, wf⟩ c b2 =
      ⟨[BusEvent.openHandle, BusEvent.read 1, BusEvent.closeHandle],
       GoOutcome.panicked, c⟩ := by
    intro c b2
    unfold writeBuf checkInit
    simp
  refine ⟨?_, ?_, ?_, ?_, ?_⟩
  · rw [hw]
  · unfold displayBytes
    rw [hw]
  · unfold writeStringOp
    rw [hw]
  · unfold drawLineOp
    rw [hw]
  · unfold resetOp
    rw [hw]

/-- C1: for every 1024-byte framebuffer, after the probe (`checkInit`'s
trace) the commit emits exactly the spec's trace: open, then for each page
register `0xB0..0xBF` ascending the command write `[0x00, page, 0x10, 0x00]`
followed by the page's 64 pixel bytes (bytes `64p..64p+63`) as three
`0x40`-prefixed data writes of 31, 31 and 2 bytes, then the close. -/
theorem claim_C1 (b : Nat) (rest : List Nat) (wf : Nat → Bool) (cur buf : List Nat)
    (hlen : buf.length = 1024) :
    (writeBuf ⟨false, b :: rest, false, wf⟩ cur buf).trace =
      (checkInit ⟨false, b :: rest, false, wf⟩).1
      ++ [BusEvent.openHandle] ++ specPages buf ++ [BusEvent.closeHandle] := by
  rw [writeBuf_ok b rest wf cur buf (by omega), codePages_eq_specPages buf (by omega)]

theorem claim_C1_witness :
    blankBuf.length = 1024 ∧
    (writeBuf ⟨false, [0], false, fun _ => false⟩ blankBuf blankBuf).trace =
      (checkInit ⟨false, [0], false, fun _ => false⟩).1
      ++ [BusEvent.openHandle] ++ specPages blankBuf ++ [BusEvent.closeHandle] :=
  ⟨by decide, claim_C1 0 [] (fun _ => false) blankBuf blankBuf (by decide)⟩

/-- C5: before the paged write the driver opens a fresh handle, does a
1-byte status read and closes it, and re-runs the full initialization
sequence exactly when the returned byte equals 71 (0x47): the commit trace
is the probe events, then the init trace if and only if `b = 71`, then the
paged write. -/
theorem claim_C5 (b : Nat) (rest : List Nat) (wf : Nat → Bool) (cur buf : List Nat)
    (hlen : 1024 ≤ buf.length) :
    (writeBuf ⟨false, b :: rest, false, wf⟩ cur buf).trace =
      ([BusEvent.openHandle, BusEvent.read 1, BusEvent.closeHandle]
        ++ (if b = 71 then initDispTrace else []))
      ++ [BusEvent.openHandle] ++ codePages buf ++ [BusEvent.closeHandle] := by
  rw [writeBuf_ok b rest wf cur buf hlen, checkInit_ok]

theorem claim_C5_witness :
    1024 ≤ blankBuf.length ∧
    (writeBuf ⟨false, [71], false, fun _ => false⟩ blankBuf blankBuf).trace =
      ([BusEvent.openHandle, BusEvent.read 1, BusEvent.closeHandle]
        ++ (if 71 = 71 then initDispTrace else []))
      ++ [BusEvent.openHandle] ++ codePages blankBuf ++ [BusEvent.closeHandle] :=
  ⟨by decide, claim_C5 71 [] (fun _ => false) blankBuf blankBuf (by decide)⟩

/-- C2 counterexample: with a live bus on which every `Write` fails
(`writeFails` oracle constantly true), `writeBuf` still returns nil and
replaces the committed framebuffer: the failed writes are neither surfaced
nor do they protect the stored state. -/
theorem claim_C2_counterexample :
    (writeBuf ⟨false, [0], false, fun _ => true⟩ blankBuf (List.replicate 1024 1)).out
        = GoOutcome.ok
    ∧ (writeBuf ⟨false, [0], false, fun _ => true⟩ blankBuf (List.replicate 1024 1)).current
        = List.replicate 1024 1
    ∧ (List.replicate 1024 1 : List Nat) ≠ blankBuf := by
  refine ⟨?_, ?_, by decide⟩
  · rw [writeBuf_ok 0 [] (fun _ => true) blankBuf (List.replicate 1024 1) (by decide)]
  · rw [writeBuf_ok 0 [] (fun _ => true) blankBuf (List.replicate 1024 1) (by decide)]

/-- C2 (amended): a failed handle open during commit is surfaced and leaves
the stored framebuffer unchanged; but a failed `Write` on an open handle is
not surfaced at all — the result of `writeBuf` is independent of the
write-failure oracle, and on a live bus it reports success and installs the
new buffer whether or not any write failed. -/
theorem claim_C2_amended (rd : List Nat) (cf : Bool) (wf wf2 : Nat → Bool)
    (b : Nat) (rest cur buf : List Nat) :
    ((writeBuf ⟨true, rd, cf, wf⟩ cur buf).out = GoOutcome.goerr
      ∧ (writeBuf ⟨true, rd, cf, wf⟩ cur buf).current = cur)
    ∧ writeBuf ⟨false, b :: rest, false, wf⟩ cur buf
        = writeBuf ⟨false, b :: rest, false, wf2⟩ cur buf
    ∧ (1024 ≤ buf.length →
        (writeBuf ⟨false, b :: rest, false, wf⟩ cur buf).out = GoOutcome.ok
        ∧ (writeBuf ⟨false, b :: rest, false, wf⟩ cur buf).current = buf) := by
  refine ⟨⟨?_, ?_⟩, ?_, fun hlen => ⟨?_, ?_⟩⟩
  · rw [writeBuf_openFail]
  · rw [writeBuf_openFail]
  · rfl
  · rw [writeBuf_ok b rest wf cur buf hlen]
  · rw [writeBuf_ok b rest wf cur buf hlen]

theorem claim_C2_amended_witness :
    1024 ≤ blankBuf.length
    ∧ (writeBuf ⟨false, [0], false, fun _ => true⟩ blankBuf blankBuf).out = GoOutcome.ok
    ∧ (writeBuf ⟨false, [0], false, fun _ => true⟩ blankBuf blankBuf).current = blankBuf :=
  ⟨by decide,
   ((claim_C2_amended [] false (fun _ => true) (fun _ => false) 0 [] blankBuf blankBuf).2.2
     (by decide)).1,
   ((claim_C2_amended [] false (fun _ => true) (fun _ => false) 0 [] blankBuf blankBuf).2.2
     (by decide)).2⟩

/-- C6: `DisplayBytes` truncates and pads: on a live bus the operation
succeeds and the committed buffer equals the input truncated to 1024 bytes
and padded with zeros (so only the first 1024 input bytes matter, and input
shorter than 1024 leaves the remainder zero). -/
theorem claim_C6 (b : Nat) (rest : List Nat) (wf : Nat → Bool) (cur data : List Nat) :
    (displayBytes ⟨false, b :: rest, false, wf⟩ cur data).out = GoOutcome.ok
    ∧ (displayBytes ⟨false, b :: rest, false, wf⟩ cur data).current
        = data.take 1024 ++ List.replicate (1024 - data.length) 0 := by
  have hblen : blankBuf.length = 1024 := by simp [blankBuf]
  have hnew : overwrite (List.replicate blankBuf.length 0) data
      = data.take 1024 ++ List.replicate (1024 - data.length) 0 := by
    rw [hblen, overwrite_replicate_zero]
  have hlen2 : 1024 ≤ (overwrite (List.replicate blankBuf.length 0) data).length := by
    rw [hnew]
    simp only [List.length_append, List.length_take, List.length_replicate]
    omega
  unfold displayBytes
  rw [writeBuf_ok b rest wf cur blankBuf (by omega)]
  dsimp only
  rw [writeBuf_ok b rest wf blankBuf _ hlen2, hnew]
  exact ⟨rfl, rfl⟩
